import Mathlib

/-!
Verification of the batched host/device LWE-ciphertext-vector transfer core
of the tfhe-cuda-backend.

The repository snapshot contains only the C interface header
`src/backends/tfhe-cuda-backend/cuda/include/ciphertext.h`, which declares

  cuda_convert_lwe_ciphertext_vector_to_gpu_64(stream, gpu_index, dest, src,
                                               number_of_cts, lwe_dimension)
  cuda_convert_lwe_ciphertext_vector_to_cpu_64(stream, gpu_index, dest, src,
                                               number_of_cts, lwe_dimension)

both returning C `void`.  The header is embedded exactly below (`CFunDecl`);
the behaviour of the transfer primitive, whose implementation file is not in
the snapshot, is modelled from the specification document.

Memory is modelled at 64-bit-coefficient granularity: a buffer address is a
word address, address `0` is the null pointer, and the byte extent of a
vector is `8` times its word count.  A stream is an identifier carrying a
queue of pending transfer operations; synchronization drains the queue in
enqueue order.
-/

set_option autoImplicit false

namespace TfheCuda

/-- Types appearing in the C declarations of `ciphertext.h`, plus the
result type named by the specification so that the declared return type can
be compared against it. -/
inductive CType where
  | voidPtr
  | u32
  | cVoid
  | resultVoidTransferError
  deriving DecidableEq

/-- A C function declaration: name, parameter types in order, return type. -/
structure CFunDecl where
  name : String
  params : List CType
  ret : CType
  deriving DecidableEq

/-- Embedding of the declaration of `cuda_convert_lwe_ciphertext_vector_to_gpu_64`
in `ciphertext.h`, lines 7 to 11: parameters
`(void *stream, uint32_t gpu_index, void *dest, void *src,
uint32_t number_of_cts, uint32_t lwe_dimension)`, returning `void`. -/
def to_gpu_64_decl : CFunDecl :=
  ⟨"cuda_convert_lwe_ciphertext_vector_to_gpu_64",
   [CType.voidPtr, CType.u32, CType.voidPtr, CType.voidPtr, CType.u32, CType.u32],
   CType.cVoid⟩

/-- Embedding of the declaration of `cuda_convert_lwe_ciphertext_vector_to_cpu_64`
in `ciphertext.h`, lines 12 to 16: same parameter list, returning `void`. -/
def to_cpu_64_decl : CFunDecl :=
  ⟨"cuda_convert_lwe_ciphertext_vector_to_cpu_64",
   [CType.voidPtr, CType.u32, CType.voidPtr, CType.voidPtr, CType.u32, CType.u32],
   CType.cVoid⟩

/-- Error taxonomy of the specification, section 7. -/
inductive TransferError where
  | InvalidDevice
  | NullBuffer
  | StreamDeviceMismatch
  | TransferFailure
  deriving DecidableEq

/-- Transfer direction of the directional primitive. -/
inductive Direction where
  | hostToDevice
  | deviceToHost
  deriving DecidableEq

/-- One enqueued asynchronous copy: direction, device, destination and source
word addresses, and the vector shape. -/
structure TransferOp where
  dir : Direction
  device : Nat
  dest : Nat
  src : Nat
  number_of_cts : Nat
  lwe_dimension : Nat
  deriving DecidableEq

/-- Machine state: number of available accelerator devices, host memory,
per-device memory, the device each stream handle is bound to, the queue of
pending operations of each stream, and whether the runtime currently rejects
enqueue attempts (resource exhaustion). -/
structure Machine where
  numDevices : Nat
  hostMem : Nat → Nat
  deviceMem : Nat → Nat → Nat
  streamDevice : Nat → Nat
  pending : Nat → List TransferOp
  enqueueRejected : Bool

/-- Modelled from the spec: the size/layout resolver of section 4.1, whose
implementation file is absent from the snapshot.  The byte extent of a
ciphertext vector is
`number_of_cts * (lwe_dimension + 1) * sizeof(coefficient)` with the
coefficient size fixed at 8 bytes. -/
def ciphertext_vector_bytes (number_of_cts lwe_dimension : Nat) : Nat :=
  number_of_cts * (lwe_dimension + 1) * 8

/-- Append one operation to the pending queue of stream `s`. -/
def enqueueOp (m : Machine) (s : Nat) (op : TransferOp) : Machine :=
  { m with pending := fun t => if t = s then m.pending t ++ [op] else m.pending t }

/-- Modelled from the spec: the directional transfer primitive of section
4.2, whose implementation file is absent from the snapshot.  It resolves the
byte extent and returns success immediately when it is zero; otherwise it
fails fast with a distinct classification on an out-of-range device index, a
null source or destination pointer, a stream not bound to the stated device,
or a runtime-level enqueue rejection; otherwise it enqueues the whole copy
as one operation on the given stream and returns. -/
def cuda_convert_lwe_ciphertext_vector (m : Machine) (stream : Nat)
    (gpu_index : Nat) (dest src : Nat) (number_of_cts lwe_dimension : Nat)
    (dir : Direction) : Except TransferError Machine :=
  if ciphertext_vector_bytes number_of_cts lwe_dimension = 0 then
    Except.ok m
  else if m.numDevices ≤ gpu_index then
    Except.error TransferError.InvalidDevice
  else if src = 0 ∨ dest = 0 then
    Except.error TransferError.NullBuffer
  else if m.streamDevice stream ≠ gpu_index then
    Except.error TransferError.StreamDeviceMismatch
  else if m.enqueueRejected then
    Except.error TransferError.TransferFailure
  else
    Except.ok (enqueueOp m stream
      ⟨dir, gpu_index, dest, src, number_of_cts, lwe_dimension⟩)

/-- Modelled from the spec: `cuda_convert_lwe_ciphertext_vector_to_gpu_64`,
the upload entry point declared in `ciphertext.h`; it fixes the direction of
the primitive to host-to-device. -/
def cuda_convert_lwe_ciphertext_vector_to_gpu_64 (m : Machine) (stream : Nat)
    (gpu_index : Nat) (dest src : Nat) (number_of_cts lwe_dimension : Nat) :
    Except TransferError Machine :=
  cuda_convert_lwe_ciphertext_vector m stream gpu_index dest src
    number_of_cts lwe_dimension Direction.hostToDevice

/-- Modelled from the spec: `cuda_convert_lwe_ciphertext_vector_to_cpu_64`,
the download entry point declared in `ciphertext.h`; it fixes the direction
of the primitive to device-to-host. -/
def cuda_convert_lwe_ciphertext_vector_to_cpu_64 (m : Machine) (stream : Nat)
    (gpu_index : Nat) (dest src : Nat) (number_of_cts lwe_dimension : Nat) :
    Except TransferError Machine :=
  cuda_convert_lwe_ciphertext_vector m stream gpu_index dest src
    number_of_cts lwe_dimension Direction.deviceToHost

/-- Contiguous word copy: the destination memory after copying `count` words
from address `src` of `srcMem` to address `dst` of `dstMem`. -/
def copyWords (srcMem dstMem : Nat → Nat) (src dst count : Nat) : Nat → Nat :=
  fun a => if dst ≤ a ∧ a < dst + count then srcMem (src + (a - dst)) else dstMem a

/-- Modelled from the spec: executing one pending copy against memory.  An
upload writes `number_of_cts * (lwe_dimension + 1)` words of host memory
into the memory of the target device; a download writes them from device
memory into host memory. -/
def applyOp (m : Machine) (op : TransferOp) : Machine :=
  match op.dir with
  | Direction.hostToDevice =>
    { m with deviceMem := fun g =>
        if g = op.device then
          (copyWords m.hostMem (m.deviceMem g) op.src op.dest
            (op.number_of_cts * (op.lwe_dimension + 1)))
        else m.deviceMem g }
  | Direction.deviceToHost =>
    { m with hostMem :=
        (copyWords (m.deviceMem op.device) m.hostMem op.src op.dest
          (op.number_of_cts * (op.lwe_dimension + 1))) }

/-- Modelled from the spec: stream synchronization, the externally invoked
collaborator operation.  It executes the pending operations of the stream in
enqueue order and empties its queue. -/
def cuda_synchronize_stream (m : Machine) (s : Nat) : Machine :=
  { (m.pending s).foldl applyOp m with
    pending := fun t =>
      if t = s then [] else ((m.pending s).foldl applyOp m).pending t }

/-- A concrete machine with one device, deterministic host memory contents,
zeroed device memory, every stream bound to device 0, empty queues, and a
runtime that accepts enqueues.  Used to instantiate witnesses. -/
def M0 : Machine :=
  ⟨1, fun a => a + 100, fun _ _ => 0, fun _ => 0, fun _ => [], false⟩

end TfheCuda

namespace TfheCuda

/-! Projection lemmas used throughout the development. -/

@[simp]
theorem enqueueOp_pending (m : Machine) (s : Nat) (op : TransferOp) (t : Nat) :
    (enqueueOp m s op).pending t =
      if t = s then m.pending t ++ [op] else m.pending t := rfl

@[simp]
theorem enqueueOp_hostMem (m : Machine) (s : Nat) (op : TransferOp) :
    (enqueueOp m s op).hostMem = m.hostMem := rfl

@[simp]
theorem enqueueOp_deviceMem (m : Machine) (s : Nat) (op : TransferOp) :
    (enqueueOp m s op).deviceMem = m.deviceMem := rfl

@[simp]
theorem enqueueOp_numDevices (m : Machine) (s : Nat) (op : TransferOp) :
    (enqueueOp m s op).numDevices = m.numDevices := rfl

@[simp]
theorem enqueueOp_streamDevice (m : Machine) (s : Nat) (op : TransferOp) :
    (enqueueOp m s op).streamDevice = m.streamDevice := rfl

@[simp]
theorem enqueueOp_enqueueRejected (m : Machine) (s : Nat) (op : TransferOp) :
    (enqueueOp m s op).enqueueRejected = m.enqueueRejected := rfl

@[simp]
theorem applyOp_numDevices (m : Machine) (op : TransferOp) :
    (applyOp m op).numDevices = m.numDevices := by
  rcases op with ⟨dir, g, dest, src, n, d⟩
  cases dir <;> rfl

@[simp]
theorem applyOp_streamDevice (m : Machine) (op : TransferOp) :
    (applyOp m op).streamDevice = m.streamDevice := by
  rcases op with ⟨dir, g, dest, src, n, d⟩
  cases dir <;> rfl

@[simp]
theorem applyOp_enqueueRejected (m : Machine) (op : TransferOp) :
    (applyOp m op).enqueueRejected = m.enqueueRejected := by
  rcases op with ⟨dir, g, dest, src, n, d⟩
  cases dir <;> rfl

@[simp]
theorem applyOp_pending (m : Machine) (op : TransferOp) :
    (applyOp m op).pending = m.pending := by
  rcases op with ⟨dir, g, dest, src, n, d⟩
  cases dir <;> rfl

@[simp]
theorem applyOp_hostMem_h2d (m : Machine) (g dest src n d : Nat) :
    (applyOp m ⟨Direction.hostToDevice, g, dest, src, n, d⟩).hostMem =
      m.hostMem := rfl

@[simp]
theorem applyOp_deviceMem_h2d (m : Machine) (g dest src n d gg : Nat) :
    (applyOp m ⟨Direction.hostToDevice, g, dest, src, n, d⟩).deviceMem gg =
      if gg = g then
        copyWords m.hostMem (m.deviceMem gg) src dest (n * (d + 1))
      else m.deviceMem gg := rfl

@[simp]
theorem applyOp_hostMem_d2h (m : Machine) (g dest src n d : Nat) :
    (applyOp m ⟨Direction.deviceToHost, g, dest, src, n, d⟩).hostMem =
      copyWords (m.deviceMem g) m.hostMem src dest (n * (d + 1)) := rfl

@[simp]
theorem applyOp_deviceMem_d2h (m : Machine) (g dest src n d : Nat) :
    (applyOp m ⟨Direction.deviceToHost, g, dest, src, n, d⟩).deviceMem =
      m.deviceMem := rfl

@[simp]
theorem sync_hostMem (m : Machine) (s : Nat) :
    (cuda_synchronize_stream m s).hostMem =
      ((m.pending s).foldl applyOp m).hostMem := rfl

@[simp]
theorem sync_deviceMem (m : Machine) (s : Nat) :
    (cuda_synchronize_stream m s).deviceMem =
      ((m.pending s).foldl applyOp m).deviceMem := rfl

@[simp]
theorem sync_numDevices (m : Machine) (s : Nat) :
    (cuda_synchronize_stream m s).numDevices =
      ((m.pending s).foldl applyOp m).numDevices := rfl

@[simp]
theorem sync_streamDevice (m : Machine) (s : Nat) :
    (cuda_synchronize_stream m s).streamDevice =
      ((m.pending s).foldl applyOp m).streamDevice := rfl

@[simp]
theorem sync_enqueueRejected (m : Machine) (s : Nat) :
    (cuda_synchronize_stream m s).enqueueRejected =
      ((m.pending s).foldl applyOp m).enqueueRejected := rfl

@[simp]
theorem sync_pending (m : Machine) (s t : Nat) :
    (cuda_synchronize_stream m s).pending t =
      if t = s then [] else ((m.pending s).foldl applyOp m).pending t := rfl

theorem copyWords_in (srcMem dstMem : Nat → Nat) (src dst count i : Nat)
    (h : i < count) :
    copyWords srcMem dstMem src dst count (dst + i) = srcMem (src + i) := by
  unfold copyWords
  have h1 : dst ≤ dst + i := Nat.le_add_right dst i
  have h2 : dst + i < dst + count := Nat.add_lt_add_left h dst
  simp [h1, h2]

theorem copyWords_out (srcMem dstMem : Nat → Nat) (src dst count a : Nat)
    (h : a < dst ∨ dst + count ≤ a) :
    copyWords srcMem dstMem src dst count a = dstMem a := by
  unfold copyWords
  have hn : ¬(dst ≤ a ∧ a < dst + count) := by omega
  simp [hn]

theorem ciphertext_vector_bytes_ne_zero (n d : Nat) (hn : n ≠ 0) :
    ciphertext_vector_bytes n d ≠ 0 := by
  unfold ciphertext_vector_bytes
  exact Nat.mul_ne_zero (Nat.mul_ne_zero hn (Nat.succ_ne_zero d)) (by norm_num)

theorem convert_zero (m : Machine) (s g dest src d : Nat) (dir : Direction) :
    cuda_convert_lwe_ciphertext_vector m s g dest src 0 d dir = Except.ok m := by
  unfold cuda_convert_lwe_ciphertext_vector ciphertext_vector_bytes
  simp

theorem convert_ok_of_valid (m : Machine) (s g dest src n d : Nat)
    (dir : Direction) (hn : n ≠ 0) (hg : g < m.numDevices) (hsrc : src ≠ 0)
    (hdst : dest ≠ 0) (hbind : m.streamDevice s = g)
    (hrej : m.enqueueRejected = false) :
    cuda_convert_lwe_ciphertext_vector m s g dest src n d dir =
      Except.ok (enqueueOp m s ⟨dir, g, dest, src, n, d⟩) := by
  unfold cuda_convert_lwe_ciphertext_vector
  rw [if_neg (ciphertext_vector_bytes_ne_zero n d hn),
    if_neg (Nat.not_le.mpr hg),
    if_neg (not_or.mpr ⟨hsrc, hdst⟩),
    if_neg (fun h => h hbind),
    if_neg (by simp [hrej])]

end TfheCuda

namespace TfheCuda

theorem convert_ok_inversion (m : Machine) (s g dest src n d : Nat)
    (dir : Direction) (m1 : Machine) (hn : n ≠ 0)
    (h : cuda_convert_lwe_ciphertext_vector m s g dest src n d dir =
      Except.ok m1) :
    m1 = enqueueOp m s ⟨dir, g, dest, src, n, d⟩ := by
  unfold cuda_convert_lwe_ciphertext_vector at h
  rw [if_neg (ciphertext_vector_bytes_ne_zero n d hn)] at h
  split_ifs at h
  exact (Except.ok.inj h).symm

/-- C3: the size/layout resolver computes exactly
`number_of_cts * (lwe_dimension + 1) * 8` bytes for a ciphertext vector; in
particular 4 ciphertexts of dimension 1024 occupy 32800 bytes. -/
theorem ciphertext_vector_bytes_spec :
    (∀ number_of_cts lwe_dimension : Nat,
      ciphertext_vector_bytes number_of_cts lwe_dimension =
        number_of_cts * (lwe_dimension + 1) * 8) ∧
    ciphertext_vector_bytes 4 1024 = 32800 :=
  ⟨fun _ _ => rfl, by norm_num [ciphertext_vector_bytes]⟩

/-- C6: with `number_of_cts = 0` and any `lwe_dimension`, the byte extent is
zero and both operations short-circuit: the machine, hence every buffer and
every stream queue, is returned unchanged, with success. -/
theorem zero_count_noop :
    ∀ (m : Machine) (s g dest src d : Nat),
      cuda_convert_lwe_ciphertext_vector_to_gpu_64 m s g dest src 0 d =
        Except.ok m ∧
      cuda_convert_lwe_ciphertext_vector_to_cpu_64 m s g dest src 0 d =
        Except.ok m :=
  fun m s g dest src d =>
    ⟨convert_zero m s g dest src d Direction.hostToDevice,
     convert_zero m s g dest src d Direction.deviceToHost⟩

/-- C7: a device index outside the range of available accelerators makes
both operations return the InvalidDevice error; no successor state is
produced, so the destination buffer is untouched. -/
theorem invalid_device_error (m : Machine) (s g dest src n d : Nat)
    (hn : n ≠ 0) (hg : m.numDevices ≤ g) :
    cuda_convert_lwe_ciphertext_vector_to_gpu_64 m s g dest src n d =
      Except.error TransferError.InvalidDevice ∧
    cuda_convert_lwe_ciphertext_vector_to_cpu_64 m s g dest src n d =
      Except.error TransferError.InvalidDevice := by
  constructor
  · unfold cuda_convert_lwe_ciphertext_vector_to_gpu_64
      cuda_convert_lwe_ciphertext_vector
    rw [if_neg (ciphertext_vector_bytes_ne_zero n d hn), if_pos hg]
  · unfold cuda_convert_lwe_ciphertext_vector_to_cpu_64
      cuda_convert_lwe_ciphertext_vector
    rw [if_neg (ciphertext_vector_bytes_ne_zero n d hn), if_pos hg]

/-- Witness for C7 on a concrete machine with one device: device index 1
equals the number of available devices and is rejected. -/
theorem invalid_device_error_witness :
    cuda_convert_lwe_ciphertext_vector_to_gpu_64 M0 0 1 2 3 1 0 =
      Except.error TransferError.InvalidDevice ∧
    cuda_convert_lwe_ciphertext_vector_to_cpu_64 M0 0 1 2 3 1 0 =
      Except.error TransferError.InvalidDevice :=
  invalid_device_error M0 0 1 2 3 1 0 (by decide) (by decide)

/-- C8: a null source or destination pointer with nonzero byte extent makes
both operations return the NullBuffer error (stated for a device index in
range, which is checked first by the primitive). -/
theorem null_buffer_error (m : Machine) (s g dest src n d : Nat)
    (hn : n ≠ 0) (hg : g < m.numDevices) (hnull : src = 0 ∨ dest = 0) :
    cuda_convert_lwe_ciphertext_vector_to_gpu_64 m s g dest src n d =
      Except.error TransferError.NullBuffer ∧
    cuda_convert_lwe_ciphertext_vector_to_cpu_64 m s g dest src n d =
      Except.error TransferError.NullBuffer := by
  constructor
  · unfold cuda_convert_lwe_ciphertext_vector_to_gpu_64
      cuda_convert_lwe_ciphertext_vector
    rw [if_neg (ciphertext_vector_bytes_ne_zero n d hn),
      if_neg (Nat.not_le.mpr hg), if_pos hnull]
  · unfold cuda_convert_lwe_ciphertext_vector_to_cpu_64
      cuda_convert_lwe_ciphertext_vector
    rw [if_neg (ciphertext_vector_bytes_ne_zero n d hn),
      if_neg (Nat.not_le.mpr hg), if_pos hnull]

/-- Witness for C8: a null source pointer with one ciphertext to transfer is
rejected with NullBuffer on a concrete machine. -/
theorem null_buffer_error_witness :
    cuda_convert_lwe_ciphertext_vector_to_gpu_64 M0 0 0 5 0 1 0 =
      Except.error TransferError.NullBuffer ∧
    cuda_convert_lwe_ciphertext_vector_to_cpu_64 M0 0 0 5 0 1 0 =
      Except.error TransferError.NullBuffer :=
  null_buffer_error M0 0 0 5 0 1 0 (by decide) (by decide) (Or.inl rfl)

/-- C10: the two declared entry points take the identical parameter list
`(stream, device index, destination, source, number_of_cts, lwe_dimension)`
with identical types position by position and the same return type, and the
modelled operations differ only in the direction passed to the shared
primitive. -/
theorem upload_download_symmetric_interface :
    to_gpu_64_decl.params = to_cpu_64_decl.params ∧
    to_gpu_64_decl.params =
      [CType.voidPtr, CType.u32, CType.voidPtr, CType.voidPtr,
       CType.u32, CType.u32] ∧
    to_gpu_64_decl.ret = to_cpu_64_decl.ret ∧
    ∀ (m : Machine) (s g dest src n d : Nat),
      cuda_convert_lwe_ciphertext_vector_to_gpu_64 m s g dest src n d =
        cuda_convert_lwe_ciphertext_vector m s g dest src n d
          Direction.hostToDevice ∧
      cuda_convert_lwe_ciphertext_vector_to_cpu_64 m s g dest src n d =
        cuda_convert_lwe_ciphertext_vector m s g dest src n d
          Direction.deviceToHost :=
  ⟨rfl, rfl, rfl, fun _ _ _ _ _ _ _ => ⟨rfl, rfl⟩⟩

end TfheCuda

namespace TfheCuda

/-- C1: for every machine with a valid device index, a stream bound to that
device, non-null buffers and an accepting runtime, uploading
`number_of_cts * (lwe_dimension + 1)` words from host address `hsrc` to
device address `ddst`, synchronizing, downloading them back to a fresh host
address `hdst`, and synchronizing again, leaves at `hdst` exactly the words
originally at `hsrc`: the round trip is byte-for-byte exact. -/
theorem upload_download_roundtrip (m : Machine) (s g hsrc ddst hdst n d : Nat)
    (hg : g < m.numDevices) (hbind : m.streamDevice s = g)
    (hrej : m.enqueueRejected = false) (hpend : m.pending s = [])
    (hhsrc : hsrc ≠ 0) (hddst : ddst ≠ 0) (hhdst : hdst ≠ 0) :
    ∃ m1 m2,
      cuda_convert_lwe_ciphertext_vector_to_gpu_64 m s g ddst hsrc n d =
        Except.ok m1 ∧
      cuda_convert_lwe_ciphertext_vector_to_cpu_64
        (cuda_synchronize_stream m1 s) s g hdst ddst n d = Except.ok m2 ∧
      ∀ i, i < n * (d + 1) →
        (cuda_synchronize_stream m2 s).hostMem (hdst + i) =
          m.hostMem (hsrc + i) := by
  rcases Nat.eq_zero_or_pos n with hn | hn
  · subst hn
    exact ⟨m, cuda_synchronize_stream m s,
      convert_zero m s g ddst hsrc d Direction.hostToDevice,
      convert_zero (cuda_synchronize_stream m s) s g hdst ddst d
        Direction.deviceToHost,
      fun i hi => absurd hi (by simp)⟩
  · have hne : n ≠ 0 := Nat.pos_iff_ne_zero.mp hn
    refine ⟨enqueueOp m s ⟨Direction.hostToDevice, g, ddst, hsrc, n, d⟩,
      enqueueOp (cuda_synchronize_stream
          (enqueueOp m s ⟨Direction.hostToDevice, g, ddst, hsrc, n, d⟩) s) s
        ⟨Direction.deviceToHost, g, hdst, ddst, n, d⟩,
      convert_ok_of_valid m s g ddst hsrc n d Direction.hostToDevice hne hg
        hhsrc hddst hbind hrej,
      convert_ok_of_valid _ s g hdst ddst n d Direction.deviceToHost hne
        (by simpa [hpend] using hg) hddst hhdst
        (by simpa [hpend] using hbind) (by simpa [hpend] using hrej), ?_⟩
    intro i hi
    simp [hpend]
    rw [copyWords_in _ _ _ _ _ _ hi, copyWords_in _ _ _ _ _ _ hi]

end TfheCuda

namespace TfheCuda

/-- Witness for C1: on a concrete one-device machine, two ciphertexts of
dimension 1 are uploaded from host address 10 to device address 20, then
downloaded to host address 30, and the round trip reproduces the source. -/
theorem upload_download_roundtrip_witness :
    ∃ m1 m2,
      cuda_convert_lwe_ciphertext_vector_to_gpu_64 M0 0 0 20 10 2 1 =
        Except.ok m1 ∧
      cuda_convert_lwe_ciphertext_vector_to_cpu_64
        (cuda_synchronize_stream m1 0) 0 0 30 20 2 1 = Except.ok m2 ∧
      ∀ i, i < 2 * (1 + 1) →
        (cuda_synchronize_stream m2 0).hostMem (30 + i) =
          M0.hostMem (10 + i) :=
  upload_download_roundtrip M0 0 0 10 20 30 2 1 (by decide) rfl rfl rfl
    (by decide) (by decide) (by decide)

/-- C2: a successful nonzero transfer is order-preserving: once the enqueued
copy has executed, the Nth coefficient of the Mth ciphertext of the source
sits at relative word offset `M * (lwe_dimension + 1) + N` of the
destination, for the upload and for the download operation alike. -/
theorem transfer_preserves_coefficient_order (m : Machine)
    (s g dest src n d M N : Nat) (m1 m2 : Machine)
    (hpend : m.pending s = []) (hM : M < n) (hN : N < d + 1) :
    (cuda_convert_lwe_ciphertext_vector_to_gpu_64 m s g dest src n d =
        Except.ok m1 →
      (cuda_synchronize_stream m1 s).deviceMem g
          (dest + (M * (d + 1) + N)) =
        m.hostMem (src + (M * (d + 1) + N))) ∧
    (cuda_convert_lwe_ciphertext_vector_to_cpu_64 m s g dest src n d =
        Except.ok m2 →
      (cuda_synchronize_stream m2 s).hostMem
          (dest + (M * (d + 1) + N)) =
        m.deviceMem g (src + (M * (d + 1) + N))) := by
  have hn : n ≠ 0 := by omega
  have hoff : M * (d + 1) + N < n * (d + 1) := by
    calc M * (d + 1) + N < (M + 1) * (d + 1) := by
          rw [Nat.succ_mul]; omega
    _ ≤ n * (d + 1) := Nat.mul_le_mul_right (d + 1) hM
  constructor
  · intro h
    have hm1 := convert_ok_inversion m s g dest src n d
      Direction.hostToDevice m1 hn h
    subst hm1
    simp [hpend]
    rw [copyWords_in _ _ _ _ _ _ hoff]
  · intro h
    have hm2 := convert_ok_inversion m s g dest src n d
      Direction.deviceToHost m2 hn h
    subst hm2
    simp [hpend]
    rw [copyWords_in _ _ _ _ _ _ hoff]

end TfheCuda

namespace TfheCuda

/-- Witness for C2: on a concrete machine, coefficient 1 of ciphertext 1 of
a 2-ciphertext dimension-1 vector lands at relative offset 3 for an upload
from host address 7 to device address 40, and for a download from device
address 7 to host address 40. -/
theorem transfer_preserves_coefficient_order_witness :
    (cuda_synchronize_stream
        (enqueueOp M0 0 ⟨Direction.hostToDevice, 0, 40, 7, 2, 1⟩)
        0).deviceMem 0 (40 + (1 * (1 + 1) + 1)) =
      M0.hostMem (7 + (1 * (1 + 1) + 1)) ∧
    (cuda_synchronize_stream
        (enqueueOp M0 0 ⟨Direction.deviceToHost, 0, 40, 7, 2, 1⟩)
        0).hostMem (40 + (1 * (1 + 1) + 1)) =
      M0.deviceMem 0 (7 + (1 * (1 + 1) + 1)) :=
  ⟨(transfer_preserves_coefficient_order M0 0 0 40 7 2 1 1 1
      (enqueueOp M0 0 ⟨Direction.hostToDevice, 0, 40, 7, 2, 1⟩)
      (enqueueOp M0 0 ⟨Direction.deviceToHost, 0, 40, 7, 2, 1⟩)
      rfl (by decide) (by decide)).1
    (convert_ok_of_valid M0 0 0 40 7 2 1 Direction.hostToDevice
      (by decide) (by decide) (by decide) (by decide) rfl rfl),
   (transfer_preserves_coefficient_order M0 0 0 40 7 2 1 1 1
      (enqueueOp M0 0 ⟨Direction.hostToDevice, 0, 40, 7, 2, 1⟩)
      (enqueueOp M0 0 ⟨Direction.deviceToHost, 0, 40, 7, 2, 1⟩)
      rfl (by decide) (by decide)).2
    (convert_ok_of_valid M0 0 0 40 7 2 1 Direction.deviceToHost
      (by decide) (by decide) (by decide) (by decide) rfl rfl)⟩

/-- C5: the transfer is atomic at byte-extent granularity: a successful call
either had zero extent and returned the state unchanged, or enqueued the
whole extent as a single pending operation and wrote no byte of host or
device memory at enqueue time; a failing call returns only an error, never a
successor state, so no partially written ciphertext is observable. -/
theorem transfer_atomic_enqueue (m : Machine) (s g dest src n d : Nat)
    (dir : Direction) (m1 : Machine)
    (h : cuda_convert_lwe_ciphertext_vector m s g dest src n d dir =
      Except.ok m1) :
    (ciphertext_vector_bytes n d = 0 ∧ m1 = m) ∨
    (m1.hostMem = m.hostMem ∧ m1.deviceMem = m.deviceMem ∧
      m1.pending s = m.pending s ++ [⟨dir, g, dest, src, n, d⟩]) := by
  by_cases hn : n = 0
  · subst hn
    left
    refine ⟨by simp [ciphertext_vector_bytes], ?_⟩
    rw [convert_zero] at h
    exact (Except.ok.inj h).symm
  · right
    have hm1 := convert_ok_inversion m s g dest src n d dir m1 hn h
    subst hm1
    simp

/-- Witness for C5: a concrete successful upload of one ciphertext enqueues
exactly one full pending operation and leaves both memories unchanged. -/
theorem transfer_atomic_enqueue_witness :
    (ciphertext_vector_bytes 1 0 = 0 ∧
      enqueueOp M0 0 ⟨Direction.hostToDevice, 0, 2, 3, 1, 0⟩ = M0) ∨
    ((enqueueOp M0 0 ⟨Direction.hostToDevice, 0, 2, 3, 1, 0⟩).hostMem =
        M0.hostMem ∧
      (enqueueOp M0 0 ⟨Direction.hostToDevice, 0, 2, 3, 1, 0⟩).deviceMem =
        M0.deviceMem ∧
      (enqueueOp M0 0 ⟨Direction.hostToDevice, 0, 2, 3, 1, 0⟩).pending 0 =
        M0.pending 0 ++ [⟨Direction.hostToDevice, 0, 2, 3, 1, 0⟩]) :=
  transfer_atomic_enqueue M0 0 0 2 3 1 0 Direction.hostToDevice
    (enqueueOp M0 0 ⟨Direction.hostToDevice, 0, 2, 3, 1, 0⟩)
    (convert_ok_of_valid M0 0 0 2 3 1 0 Direction.hostToDevice
      (by decide) (by decide) (by decide) (by decide) rfl rfl)

end TfheCuda

namespace TfheCuda

/-- C9: two uploads enqueued on the same stream with disjoint destination
regions, followed by one synchronization, leave both destination regions
populated from their respective sources: pending operations execute in
enqueue order and neither transfer disturbs the region of the other. -/
theorem same_stream_ordering (m : Machine)
    (s g dst1 src1 n1 d1 dst2 src2 n2 d2 : Nat)
    (hg : g < m.numDevices) (hbind : m.streamDevice s = g)
    (hrej : m.enqueueRejected = false) (hpend : m.pending s = [])
    (hsrc1 : src1 ≠ 0) (hdst1 : dst1 ≠ 0) (hsrc2 : src2 ≠ 0) (hdst2 : dst2 ≠ 0)
    (hn1 : n1 ≠ 0) (hn2 : n2 ≠ 0)
    (hdisj : dst1 + n1 * (d1 + 1) ≤ dst2 ∨ dst2 + n2 * (d2 + 1) ≤ dst1) :
    ∃ m1 m2,
      cuda_convert_lwe_ciphertext_vector_to_gpu_64 m s g dst1 src1 n1 d1 =
        Except.ok m1 ∧
      cuda_convert_lwe_ciphertext_vector_to_gpu_64 m1 s g dst2 src2 n2 d2 =
        Except.ok m2 ∧
      (∀ i, i < n1 * (d1 + 1) →
        (cuda_synchronize_stream m2 s).deviceMem g (dst1 + i) =
          m.hostMem (src1 + i)) ∧
      (∀ i, i < n2 * (d2 + 1) →
        (cuda_synchronize_stream m2 s).deviceMem g (dst2 + i) =
          m.hostMem (src2 + i)) := by
  refine ⟨enqueueOp m s ⟨Direction.hostToDevice, g, dst1, src1, n1, d1⟩,
    enqueueOp (enqueueOp m s ⟨Direction.hostToDevice, g, dst1, src1, n1, d1⟩)
      s ⟨Direction.hostToDevice, g, dst2, src2, n2, d2⟩,
    convert_ok_of_valid m s g dst1 src1 n1 d1 Direction.hostToDevice hn1 hg
      hsrc1 hdst1 hbind hrej,
    convert_ok_of_valid _ s g dst2 src2 n2 d2 Direction.hostToDevice hn2
      (by simpa using hg) hsrc2 hdst2 (by simpa using hbind)
      (by simpa using hrej), ?_, ?_⟩
  · intro i hi
    have hout : dst1 + i < dst2 ∨ dst2 + n2 * (d2 + 1) ≤ dst1 + i := by
      rcases hdisj with hdj | hdj
      · exact Or.inl (lt_of_lt_of_le (Nat.add_lt_add_left hi dst1) hdj)
      · exact Or.inr (le_trans hdj (Nat.le_add_right dst1 i))
    simp [hpend]
    rw [copyWords_out _ _ _ _ _ _ hout, copyWords_in _ _ _ _ _ _ hi]
  · intro i hi
    simp [hpend]
    rw [copyWords_in _ _ _ _ _ _ hi]

/-- Witness for C9: on a concrete machine, uploading one word to device
address 1 and one word to device address 2 on stream 0, then synchronizing,
populates both addresses from their respective host sources. -/
theorem same_stream_ordering_witness :
    ∃ m1 m2,
      cuda_convert_lwe_ciphertext_vector_to_gpu_64 M0 0 0 1 10 1 0 =
        Except.ok m1 ∧
      cuda_convert_lwe_ciphertext_vector_to_gpu_64 m1 0 0 2 20 1 0 =
        Except.ok m2 ∧
      (∀ i, i < 1 * (0 + 1) →
        (cuda_synchronize_stream m2 0).deviceMem 0 (1 + i) =
          M0.hostMem (10 + i)) ∧
      (∀ i, i < 1 * (0 + 1) →
        (cuda_synchronize_stream m2 0).deviceMem 0 (2 + i) =
          M0.hostMem (20 + i)) :=
  same_stream_ordering M0 0 0 1 10 1 0 2 20 1 0 (by decide) rfl rfl rfl
    (by decide) (by decide) (by decide) (by decide) (by decide) (by decide)
    (Or.inl (by decide))

end TfheCuda

namespace TfheCuda

/-- C4 counterexample: in `ciphertext.h` both entry points are declared with
C return type `void`, not a result type of value `void` and error
`TransferError`; no error value is returned at this interface. -/
theorem return_type_is_void_not_result :
    to_gpu_64_decl.ret ≠ CType.resultVoidTransferError ∧
    to_cpu_64_decl.ret ≠ CType.resultVoidTransferError := by
  decide

/-- C4 amended: both declared entry points return `void`; in the modelled
primitive every failure is detected at enqueue time and reported
synchronously with a distinct classification, and none is swallowed: the
call returns `error InvalidDevice`, `error NullBuffer`,
`error StreamDeviceMismatch` or `error TransferFailure` exactly when the
corresponding failure condition of section 7 holds on the inputs, in the
check order of the primitive. -/
theorem failure_reported_synchronously :
    (to_gpu_64_decl.ret = CType.cVoid ∧ to_cpu_64_decl.ret = CType.cVoid) ∧
    ∀ (m : Machine) (s g dest src n d : Nat) (dir : Direction),
      (cuda_convert_lwe_ciphertext_vector m s g dest src n d dir =
          Except.error TransferError.InvalidDevice ↔
        ciphertext_vector_bytes n d ≠ 0 ∧ m.numDevices ≤ g) ∧
      (cuda_convert_lwe_ciphertext_vector m s g dest src n d dir =
          Except.error TransferError.NullBuffer ↔
        ciphertext_vector_bytes n d ≠ 0 ∧ g < m.numDevices ∧
          (src = 0 ∨ dest = 0)) ∧
      (cuda_convert_lwe_ciphertext_vector m s g dest src n d dir =
          Except.error TransferError.StreamDeviceMismatch ↔
        ciphertext_vector_bytes n d ≠ 0 ∧ g < m.numDevices ∧ src ≠ 0 ∧
          dest ≠ 0 ∧ m.streamDevice s ≠ g) ∧
      (cuda_convert_lwe_ciphertext_vector m s g dest src n d dir =
          Except.error TransferError.TransferFailure ↔
        ciphertext_vector_bytes n d ≠ 0 ∧ g < m.numDevices ∧ src ≠ 0 ∧
          dest ≠ 0 ∧ m.streamDevice s = g ∧ m.enqueueRejected = true) := by
  refine ⟨⟨rfl, rfl⟩, ?_⟩
  intro m s g dest src n d dir
  unfold cuda_convert_lwe_ciphertext_vector
  split_ifs with h1 h2 h3 h4 h5 <;>
    simp_all [Nat.not_le, not_or, Nat.lt_iff_add_one_le]
  all_goals tauto

end TfheCuda
